import Mathlib

/-!
ShareFile — client-side chunked-upload protocol, embedded

A shallow embedding of the ShareFile frontend's chunked-upload scheduler and
download-link client (src/frontend/components/UploadManager.tsx, the API
client module exporting apiFetch/uploadChunk/..., the FileManager component,
and src/frontend/lib/crypto.ts), together with theorems checking the
specification's claims about them.

File contents are embedded as lists of byte values (`List Nat`); machine
numbers are `Nat` (the quantities involved — sizes, indices, counts — are
non-negative and nowhere overflow-sensitive); fallible operations return
`Except`.  Browser primitives that the claims treat as opaque (SHA-256,
`encodeURIComponent`, `Date#toISOString`, JSON parsing, `crypto.randomUUID`)
are parameters of the definitions that use them.
-/

namespace ShareFile

/-- A file's content: its bytes in order (`File`/`Blob` of the browser API). -/
abbrev FileBytes := List Nat

/-- UploadManager.tsx line 26: the default chunk size, 8 MiB. -/
def DEFAULT_CHUNK_SIZE : Nat := 8 * 1024 * 1024

/-- UploadManager.tsx line 27: the bound on concurrent upload workers. -/
def MAX_CONCURRENCY : Nat := 4

/-- The browser call `Blob.slice(start, stop)`: the bytes from position `start` (inclusive) to
`stop` (exclusive), clamped to the blob's size. -/
def fileSlice (file : FileBytes) (start stop : Nat) : FileBytes :=
  (file.take stop).drop start

/-- The chunk blob built by `uploadWorker` (UploadManager.tsx lines 147-149):
`start = nextIndex * chunkSize`, `end = Math.min(start + chunkSize, file.size)`,
`blob = file.slice(start, end)`. -/
def chunkAt (file : FileBytes) (chunkSize i : Nat) : FileBytes :=
  fileSlice file (i * chunkSize) (min (i * chunkSize + chunkSize) file.length)

/-- The count `Math.ceil(file.size / chunkSize)` (UploadManager.tsx lines 70-75 and 112):
the ceiling of the exact division, taken over `ℚ`. -/
def totalChunksJS (size chunkSize : Nat) : Nat :=
  (⌈(size : ℚ) / (chunkSize : ℚ)⌉).toNat

/-- The body of the session-create request (api module, createUploadSession). -/
structure SessionCreatePayload where
  filename : String
  size : Nat
  mime_type : String
  chunk_size : Nat
  total_chunks : Nat
  file_sha256 : String
  deriving Repr, DecidableEq

/-- The session-create request `handleUpload` sends (UploadManager.tsx lines
110-122): size and name from the file, `total_chunks = Math.ceil(size / chunkSize)`,
and the whole-file SHA-256 (`hash`, the embedding's stand-in for
`sha256HexFromFile`). -/
def sessionCreatePayload (hash : FileBytes → String) (name mime : String)
    (file : FileBytes) (chunkSize : Nat) : SessionCreatePayload :=
  { filename := name
    size := file.length
    mime_type := mime
    chunk_size := chunkSize
    total_chunks := totalChunksJS file.length chunkSize
    file_sha256 := hash file }

/-- UploadManager.tsx line 130: the queue of indices to upload — the probe's
missing list when non-empty, otherwise every index `0..total-1`
(`Array.from({ length: total }, (_, idx) => idx)`). -/
def missingQueue (probeMissing : List Nat) (total : Nat) : List Nat :=
  if probeMissing.length > 0 then probeMissing else List.range total

/-- State of the upload worker pool (UploadManager.tsx lines 139-170): the
shared mutable queue (`uploadQueue`) and, per spawned worker, the list of
indices that worker has claimed so far, in claim order. -/
structure PoolState where
  queue : List Nat
  claimed : List (List Nat)
  deriving Repr, DecidableEq

/-- The pool as spawned at UploadManager.tsx line 169:
`Math.min(MAX_CONCURRENCY, uploadQueue.length)` workers, none having claimed
anything yet. -/
def initPool (q : List Nat) : PoolState :=
  { queue := q, claimed := List.replicate (min MAX_CONCURRENCY q.length) [] }

/-- One event-loop step in which worker `w` reaches `uploadQueue.shift()`
(UploadManager.tsx line 143): the head of the shared queue is removed and
claimed by `w` atomically (JavaScript runs the synchronous `shift` without
interleaving).  A step naming a non-existent worker, or taken on an empty
queue, changes nothing (the worker's loop exits at line 144-146). -/
def poolStep (s : PoolState) (w : Nat) : PoolState :=
  match s.queue with
  | [] => s
  | i :: rest =>
    if w < s.claimed.length then
      { queue := rest, claimed := s.claimed.set w (s.claimed.getD w [] ++ [i]) }
    else s

/-- A pool run under an interleaving schedule: the sequence of workers that
successively reach the shared-queue `shift`. -/
def poolRun (s : PoolState) (sched : List Nat) : PoolState :=
  sched.foldl poolStep s

/-- An HTTP response as the client observes it: `ok` flag, status code,
`Content-Type` header and body text. -/
structure HttpResponse where
  ok : Bool
  status : Nat
  contentType : String
  body : String
  deriving Repr, DecidableEq

/-- The message of the `Error` thrown by `uploadChunk` on a non-ok response
(api module lines 161-164): the body text, or `Chunk upload failed (status)`
when the body is empty. -/
def chunkUploadError (resp : HttpResponse) : String :=
  if resp.body = "" then "Chunk upload failed (" ++ toString resp.status ++ ")"
  else resp.body

/-- The api module's `uploadChunk` (lines 140-165) after the PUT returns: a
non-ok response throws, an ok response succeeds.  There is no retry inside
`uploadChunk`. -/
def uploadChunkResult (resp : HttpResponse) : Except String Unit :=
  if resp.ok then Except.ok ()
  else Except.error (chunkUploadError resp)

/-- One `uploadWorker` (UploadManager.tsx lines 141-167) draining a queue, with
`net` giving the HTTP response each chunk index receives: the worker takes the
indices in order, performs exactly one network call per index (there is no
try/catch and no retry loop in the worker), and the first failure's thrown
error propagates out of the worker, ending the run.  Returns the per-index
attempt counts in processing order, and the run's outcome. -/
def workerAttempts (net : Nat → HttpResponse) : List Nat → List (Nat × Nat) × Except String Unit
  | [] => ([], Except.ok ())
  | i :: rest =>
    match uploadChunkResult (net i) with
    | Except.error e => ([(i, 1)], Except.error e)
    | Except.ok _ =>
      let r := workerAttempts net rest
      ((i, 1) :: r.1, r.2)

/-- The HTTP request `uploadChunk` sends, as built (api module lines 148-159). -/
structure ChunkRequest where
  method : String
  url : String
  contentType : String
  xChunkSize : Nat
  xChunkChecksum : String
  idempotencyKey : String
  body : FileBytes
  deriving Repr, DecidableEq

/-- The PUT request for chunk `index` of session `sessionId`, as composed by
`uploadWorker` (UploadManager.tsx lines 147-152) and sent by `uploadChunk`
(api module lines 140-159): the blob is `file.slice(i*cs, min(i*cs+cs, size))`,
`X-Chunk-Size` is `String(chunk.size)` (embedded as the number itself),
`X-Chunk-Checksum` is `sha256HexFromBlob(blob)` (`hash`, the embedding's
stand-in for SHA-256 hex), and the Idempotency-Key is
`sessionId + '-' + nextIndex + '-' + crypto.randomUUID()` (`uuid` standing for
the freshly drawn UUID of this attempt). -/
def buildChunkRequest (hash : FileBytes → String) (file : FileBytes) (chunkSize : Nat)
    (sessionId : String) (index : Nat) (uuid : String) : ChunkRequest :=
  let blob := chunkAt file chunkSize index
  { method := "PUT"
    url := "/upload/sessions/" ++ sessionId ++ "/chunk/" ++ toString index
    contentType := "application/octet-stream"
    xChunkSize := blob.length
    xChunkChecksum := hash blob
    idempotencyKey := sessionId ++ "-" ++ toString index ++ "-" ++ uuid
    body := blob }

/-- The link-options form state of UploadManager.tsx (lines 42-46):
`linkExpiresAt` and `linkPassword` are text inputs (empty string when unset),
the rest are checkboxes. -/
structure LinkFormState where
  noExpiry : Bool
  expiresAt : String
  password : String
  requirePage : Bool
  createShort : Bool
  deriving Repr, DecidableEq

/-- The body of a link-creation request; `none` is an absent field. -/
structure LinkPayload where
  expires_at : Option String
  no_expiry : Option Bool
  password : Option String
  require_download_page : Bool
  create_short_link : Bool
  deriving Repr, DecidableEq

/-- Payload construction and validation of `handleCreateDownloadLink`
(UploadManager.tsx lines 208-232): `no_expiry := true` when the never-expires
box is checked; else `expires_at := new Date(input).toISOString()` (`toIso`
standing for that conversion) when an expiry was typed; else the function sets
the validation message and returns before any API call.  A non-blank password
is trimmed and included; the two checkbox flags are always included. -/
def buildLinkPayload (toIso : String → String) (form : LinkFormState) :
    Except String LinkPayload :=
  if form.noExpiry then
    Except.ok
      { expires_at := none
        no_expiry := some true
        password := if form.password.trim = "" then none else some form.password.trim
        require_download_page := form.requirePage
        create_short_link := form.createShort }
  else if form.expiresAt ≠ "" then
    Except.ok
      { expires_at := some (toIso form.expiresAt)
        no_expiry := none
        password := if form.password.trim = "" then none else some form.password.trim
        require_download_page := form.requirePage
        create_short_link := form.createShort }
  else
    Except.error ("有効期限を指定するか「無期限にする」にチェックを入れてください")

/-- The FileManager component member `handleCreateLink` (lines 137-180): validates
first (`!form.noExpiry && !form.expiresAt` is rejected with the form error
before any API call), then builds the same payload shape as the upload page. -/
def fileManagerLinkPayload (toIso : String → String) (form : LinkFormState) :
    Except String LinkPayload :=
  if ¬ form.noExpiry ∧ form.expiresAt = "" then
    Except.error ("有効期限を指定するか「無期限」を選択してください")
  else
    Except.ok
      { expires_at := if form.noExpiry then none
          else if form.expiresAt ≠ "" then some (toIso form.expiresAt) else none
        no_expiry := if form.noExpiry then some true else none
        password := if form.password.trim = "" then none else some form.password.trim
        require_download_page := form.requirePage
        create_short_link := form.createShort }

/-- The polling loop body (UploadManager.tsx lines 181-190) over the list of
remaining attempt numbers, with `states` giving each poll's reported session
status: the loop returns success at the first poll whose status is
`completed`; when the attempts run out, control falls through to lines 192-194,
which also declare success.  Result: the declared outcome (`true` = the
client sets `アップロード完了` and calls `onUploadComplete`) and the number of
polls performed. -/
def pollRun (states : Nat → String) : List Nat → Bool × Nat
  | [] => (true, 0)
  | a :: rest =>
    if states a = "completed" then (true, 1)
    else
      let r := pollRun states rest
      (r.1, r.2 + 1)

/-- The finalize tail of `handleUpload` (UploadManager.tsx lines 175-194):
when `finalizeSession` itself reports `completed`, the polling block is
skipped; otherwise the client polls `getSessionStatus` up to 60 times (2 s
apart) and then falls through.  Either way the code afterwards declares the
upload complete. -/
def finalizePhase (finalizeStatus : String) (states : Nat → String) : Bool × Nat :=
  if finalizeStatus = "completed" then (true, 0)
  else pollRun states (List.range 60)

/-- What `apiFetch` produces from an ok response: `{}` on a 204, the
JSON-parsed body when the Content-Type includes `application/json`, the raw
body text otherwise. -/
inductive FetchResult where
  | emptyObj : FetchResult
  | jsonBody (parsed : String) : FetchResult
  | textBody (raw : String) : FetchResult
  deriving Repr, DecidableEq

/-- Whether `pat` occurs at the start of `cs`. -/
def charsStartWith : List Char → List Char → Bool
  | [], _ => true
  | _ :: _, [] => false
  | p :: ps, c :: cs => p == c && charsStartWith ps cs

/-- Whether `pat` occurs contiguously somewhere in `s`. -/
def charsContains : List Char → List Char → Bool
  | [], pat => charsStartWith pat []
  | c :: t, pat => charsStartWith pat (c :: t) || charsContains t pat

/-- The JavaScript test `String.includes`: `pat` occurs as a contiguous substring of
`s`. -/
def stringIncludes (s pat : String) : Bool := charsContains s.data pat.data

/-- The api module's `apiFetch` (lines 38-66) from the response onward: a
non-ok response throws an `Error` with the body text, or
`Request failed (status)` when the body is empty; a 204 returns `{}`; else the
body is JSON-parsed (`jsonParse` standing for `response.json()`) when the
Content-Type includes `application/json`, and returned as text otherwise. -/
def apiFetch (jsonParse : String → String) (r : HttpResponse) :
    Except String FetchResult :=
  if ¬ r.ok then
    Except.error
      (if r.body = "" then "Request failed (" ++ toString r.status ++ ")" else r.body)
  else if r.status = 204 then
    Except.ok FetchResult.emptyObj
  else if stringIncludes r.contentType ("application/json") then
    Except.ok (FetchResult.jsonBody (jsonParse r.body))
  else
    Except.ok (FetchResult.textBody r.body)

/-- A created download link as the client sees it (ApiDownloadLink / the
createDownloadLink response). -/
structure LinkRecord where
  url : String
  require_download_page : Bool
  has_password : Bool
  short_url : Option String
  deriving Repr, DecidableEq

/-- The long download path the client presents for a link (UploadManager.tsx
lines 236-240, FileManager lines 342-347): the interstitial share-download
page when the link requires the download page or has a password, else the
link's own URL.  `encode` stands for `encodeURIComponent`; `tok` is the token
the code extracts from the link URL's query string. -/
def downloadPagePath (encode : String → String) (fileId name tok : String)
    (link : LinkRecord) : String :=
  if link.require_download_page || link.has_password then
    "/share-download/" ++ fileId ++ "?token=" ++ encode tok ++ "&name=" ++ encode name
  else link.url

/-- The primary link presented (UploadManager.tsx line 241, FileManager line
349): the short URL when one exists, else the long download path. -/
def primaryPath (encode : String → String) (fileId name tok : String)
    (link : LinkRecord) : String :=
  link.short_url.getD (downloadPagePath encode fileId name tok link)

/-- The fallback link presented (UploadManager.tsx line 243, FileManager line
351): the long download path, kept only when a short URL took the primary
slot. -/
def fallbackPath (encode : String → String) (fileId name tok : String)
    (link : LinkRecord) : Option String :=
  if link.short_url.isSome then
    some (downloadPagePath encode fileId name tok link)
  else none

/-! ## Helper lemmas -/

/-- Clamping the slice end to the file length is invisible to `take`. -/
theorem take_min_length (f : FileBytes) (m : Nat) : f.take (min m f.length) = f.take m := by
  rcases Nat.le_total m f.length with h | h
  · rw [Nat.min_eq_left h]
  · rw [Nat.min_eq_right h, List.take_length, List.take_of_length_le h]

/-- The chunk blob, in drop/take form. -/
theorem chunkAt_eq_drop_take (f : FileBytes) (cs i : Nat) :
    chunkAt f cs i = (f.drop (i * cs)).take cs := by
  unfold chunkAt fileSlice
  rw [take_min_length, List.drop_take, Nat.add_sub_cancel_left]

/-- Bounds pinning `(s + cs - 1) / cs` as the ceiling of `s / cs`. -/
theorem ceilDiv_mul_bounds (s cs : Nat) (hcs : 0 < cs) :
    s ≤ cs * ((s + cs - 1) / cs) ∧ cs * ((s + cs - 1) / cs) ≤ s + cs - 1 := by
  have h1 := Nat.div_add_mod (s + cs - 1) cs
  have h2 := Nat.mod_lt (s + cs - 1) hcs
  generalize cs * ((s + cs - 1) / cs) = m at h1 ⊢
  omega

/-- Over `ℚ`, `Math.ceil(s / cs)` is the natural-number ceiling division. -/
theorem totalChunksJS_eq_ceilDiv (s cs : Nat) (hcs : 0 < cs) :
    totalChunksJS s cs = (s + cs - 1) / cs := by
  obtain ⟨hb1, hb2⟩ := ceilDiv_mul_bounds s cs hcs
  unfold totalChunksJS
  generalize hqdef : (s + cs - 1) / cs = q at hb1 hb2 ⊢
  have hq : ⌈(s : ℚ) / (cs : ℚ)⌉ = (q : ℤ) := by
    have hcsQ : (0 : ℚ) < cs := by exact_mod_cast hcs
    rw [Int.ceil_eq_iff]
    constructor
    · rw [lt_div_iff₀ hcsQ]
      have h2Q : (q : ℚ) * (cs : ℚ) < s + cs := by
        have : q * cs < s + cs := by
          rw [Nat.mul_comm]
          omega
        exact_mod_cast this
      push_cast
      nlinarith
    · rw [div_le_iff₀ hcsQ]
      have h1Q : (s : ℚ) ≤ (q : ℚ) * (cs : ℚ) := by
        have : s ≤ q * cs := by
          rw [Nat.mul_comm]
          exact hb1
        exact_mod_cast this
      push_cast
      linarith
  rw [hq, Int.toNat_natCast]

/-- Concatenating `n` successive `cs`-sized take/drop windows recovers any
list of length at most `n * cs`. -/
theorem flatten_take_chunks (cs : Nat) :
    ∀ (n : Nat) (f : FileBytes), f.length ≤ n * cs →
      ((List.range n).map (fun i => (f.drop (i * cs)).take cs)).flatten = f := by
  intro n
  induction n with
  | zero =>
    intro f hf
    simp only [Nat.zero_mul, Nat.le_zero] at hf
    simp [List.length_eq_zero.mp hf]
  | succ n ih =>
    intro f hf
    rw [List.range_succ_eq_map, List.map_cons, List.map_map, List.flatten_cons]
    have hmap : (List.range n).map ((fun i => (f.drop (i * cs)).take cs) ∘ Nat.succ)
        = (List.range n).map (fun i => ((f.drop cs).drop (i * cs)).take cs) := by
      apply List.map_congr_left
      intro i _
      simp only [Function.comp_apply]
      rw [List.drop_drop, Nat.succ_mul, Nat.add_comm (i * cs) cs]
    have hlen : (f.drop cs).length ≤ n * cs := by
      rw [List.length_drop]
      have : f.length ≤ n * cs + cs := by
        have := hf
        rw [Nat.succ_mul] at this
        exact this
      omega
    rw [hmap, ih (f.drop cs) hlen]
    simp only [Nat.zero_mul, List.drop_zero]
    exact List.take_append_drop cs f

/-! ## C1 — the chunk partition -/

/-- C1: for every file and positive chunk size, the scheduler's partition is
deterministic: chunk `i` is the file bytes from `i * chunkSize` up to
`min((i+1) * chunkSize, file.size)`, every chunk before the last has exactly
`chunkSize` bytes, and concatenating chunks `0..totalChunks-1` in ascending
index order reproduces the file byte-for-byte. -/
theorem chunk_scheduler_partition (file : FileBytes) (cs : Nat) (hcs : 0 < cs) :
    (∀ i, chunkAt file cs i =
        (file.take (min ((i + 1) * cs) file.length)).drop (i * cs)) ∧
    (∀ i, i + 1 < totalChunksJS file.length cs → (chunkAt file cs i).length = cs) ∧
    ((List.range (totalChunksJS file.length cs)).map (chunkAt file cs)).flatten
        = file := by
  refine ⟨?_, ?_, ?_⟩
  · intro i
    unfold chunkAt fileSlice
    rw [Nat.add_mul, Nat.one_mul]
  · intro i hi
    rw [totalChunksJS_eq_ceilDiv file.length cs hcs] at hi
    obtain ⟨-, hb2⟩ := ceilDiv_mul_bounds file.length cs hcs
    have hstep : cs * (i + 2) ≤ cs * ((file.length + cs - 1) / cs) :=
      Nat.mul_le_mul (Nat.le_refl cs) (by omega)
    have hroom : cs * (i + 2) ≤ file.length + cs - 1 := le_trans hstep hb2
    rw [chunkAt_eq_drop_take, List.length_take, List.length_drop]
    rw [Nat.mul_add] at hroom
    rw [Nat.mul_comm i cs]
    generalize cs * i = m at hroom ⊢
    omega
  · rw [List.map_congr_left (fun i _ => chunkAt_eq_drop_take file cs i)]
    apply flatten_take_chunks cs
    rw [totalChunksJS_eq_ceilDiv file.length cs hcs]
    obtain ⟨hb1, -⟩ := ceilDiv_mul_bounds file.length cs hcs
    rw [Nat.mul_comm]
    exact hb1

/-- Witness for C1 at the file `[7, 8, 9, 10, 11]` with chunk size 2. -/
theorem chunk_scheduler_partition_witness :
    0 < 2 ∧
    ((∀ i, chunkAt [7, 8, 9, 10, 11] 2 i =
        (([7, 8, 9, 10, 11] : FileBytes).take
          (min ((i + 1) * 2) ([7, 8, 9, 10, 11] : FileBytes).length)).drop (i * 2)) ∧
    (∀ i, i + 1 < totalChunksJS ([7, 8, 9, 10, 11] : FileBytes).length 2 →
        (chunkAt [7, 8, 9, 10, 11] 2 i).length = 2) ∧
    ((List.range (totalChunksJS ([7, 8, 9, 10, 11] : FileBytes).length 2)).map
        (chunkAt [7, 8, 9, 10, 11] 2)).flatten = [7, 8, 9, 10, 11]) :=
  ⟨by decide, chunk_scheduler_partition [7, 8, 9, 10, 11] 2 (by decide)⟩

/-! ## C4 — the session-create total chunk count -/

/-- C4: the total chunk count the client computes and sends in the
session-create request equals `ceil(size / chunkSize)` (as naturals,
`(size + chunkSize - 1) / chunkSize`); in particular a 25 MiB file with 8 MiB
chunks yields `totalChunks = 4`. -/
theorem session_total_chunks (hash : FileBytes → String) (name mime : String)
    (file : FileBytes) (cs : Nat) (hcs : 0 < cs) :
    (sessionCreatePayload hash name mime file cs).total_chunks
        = (file.length + cs - 1) / cs ∧
    totalChunksJS (25 * 1024 * 1024) (8 * 1024 * 1024) = 4 := by
  constructor
  · exact totalChunksJS_eq_ceilDiv file.length cs hcs
  · rw [totalChunksJS_eq_ceilDiv _ _ (by norm_num)]

/-- Witness for C4 at a 5-byte file with chunk size 2. -/
theorem session_total_chunks_witness :
    0 < 2 ∧
    ((sessionCreatePayload (fun _ => "h") "a.bin" "text/plain" [7, 8, 9, 10, 11] 2).total_chunks
        = (([7, 8, 9, 10, 11] : FileBytes).length + 2 - 1) / 2 ∧
    totalChunksJS (25 * 1024 * 1024) (8 * 1024 * 1024) = 4) :=
  ⟨by decide, session_total_chunks (fun _ => "h") "a.bin" "text/plain" [7, 8, 9, 10, 11] 2 (by decide)⟩

/-! ## The worker pool: claims are conserved -/

/-- Appending one index to worker `w`'s claim list adds exactly that index to
the flattened claims. -/
theorem count_flatten_set (l : List (List Nat)) (w i x : Nat) (hw : w < l.length) :
    ((l.set w (l.getD w [] ++ [i])).flatten).count x
      = l.flatten.count x + ([i] : List Nat).count x := by
  induction l generalizing w with
  | nil => simp at hw
  | cons a t ih =>
    cases w with
    | zero =>
      simp only [List.set_cons_zero, List.getD_cons_zero, List.flatten_cons,
        List.count_append]
      omega
    | succ w =>
      simp only [List.set_cons_succ, List.getD_cons_succ, List.flatten_cons,
        List.count_append]
      rw [ih w (by simpa using hw)]
      omega

/-- One pool step conserves, for every index, the number of copies in the
claims plus the queue. -/
theorem poolStep_count (s : PoolState) (w x : Nat) :
    (poolStep s w).claimed.flatten.count x + (poolStep s w).queue.count x
      = s.claimed.flatten.count x + s.queue.count x := by
  cases hq : s.queue with
  | nil =>
    have hred : poolStep s w = s := by
      unfold poolStep
      rw [hq]
    rw [hred, hq]
  | cons i rest =>
    by_cases hw : w < s.claimed.length
    · have hred : poolStep s w
          = { queue := rest, claimed := s.claimed.set w (s.claimed.getD w [] ++ [i]) } := by
        unfold poolStep
        rw [hq]
        simp [hw]
      rw [hred]
      show ((s.claimed.set w (s.claimed.getD w [] ++ [i])).flatten).count x
          + rest.count x = _
      rw [count_flatten_set _ _ _ _ hw]
      simp only [List.count_cons, List.count_singleton, List.count_nil]
      omega
    · have hred : poolStep s w = s := by
        unfold poolStep
        rw [hq]
        simp [hw]
      rw [hred, hq]

/-- A pool step never changes the number of workers. -/
theorem poolStep_claimed_length (s : PoolState) (w : Nat) :
    (poolStep s w).claimed.length = s.claimed.length := by
  cases hq : s.queue with
  | nil =>
    have hred : poolStep s w = s := by
      unfold poolStep
      rw [hq]
    rw [hred]
  | cons i rest =>
    by_cases hw : w < s.claimed.length
    · have hred : poolStep s w
          = { queue := rest, claimed := s.claimed.set w (s.claimed.getD w [] ++ [i]) } := by
        unfold poolStep
        rw [hq]
        simp [hw]
      rw [hred]
      simp
    · have hred : poolStep s w = s := by
        unfold poolStep
        rw [hq]
        simp [hw]
      rw [hred]

/-- A whole pool run conserves, for every index, the number of copies in the
claims plus the queue. -/
theorem poolRun_count (sched : List Nat) (s : PoolState) (x : Nat) :
    (poolRun s sched).claimed.flatten.count x + (poolRun s sched).queue.count x
      = s.claimed.flatten.count x + s.queue.count x := by
  induction sched generalizing s with
  | nil => rfl
  | cons w ws ih =>
    show (poolRun (poolStep s w) ws).claimed.flatten.count x
        + (poolRun (poolStep s w) ws).queue.count x = _
    rw [ih (poolStep s w)]
    exact poolStep_count s w x

/-- A whole pool run never changes the number of workers. -/
theorem poolRun_claimed_length (sched : List Nat) (s : PoolState) :
    (poolRun s sched).claimed.length = s.claimed.length := by
  induction sched generalizing s with
  | nil => rfl
  | cons w ws ih =>
    show (poolRun (poolStep s w) ws).claimed.length = _
    rw [ih (poolStep s w)]
    exact poolStep_claimed_length s w

/-- Flattening the freshly spawned pool's claims gives nothing. -/
theorem flatten_replicate_nil (n : Nat) : (List.replicate n ([] : List Nat)).flatten = [] := by
  induction n with
  | zero => rfl
  | succ n ih => simp [List.replicate_succ, ih]

/-! ## C5 — bounded pool, each index claimed once -/

/-- C5: during one upload run the pool spawns `min(4, queue length)` workers —
never more than `MAX_CONCURRENCY = 4`, also after any interleaving — and when
a run drains the queue, every queued missing index has been claimed by exactly
one worker (its total claim count across all workers is 1), so no index is
uploaded more than once in that run. -/
theorem worker_pool_claims (q0 sched : List Nat) (hnd : q0.Nodup)
    (hdone : (poolRun (initPool q0) sched).queue = []) :
    (initPool q0).claimed.length = min MAX_CONCURRENCY q0.length ∧
    (poolRun (initPool q0) sched).claimed.length ≤ MAX_CONCURRENCY ∧
    (∀ i ∈ q0, (poolRun (initPool q0) sched).claimed.flatten.count i = 1) := by
  refine ⟨by simp [initPool], ?_, ?_⟩
  · rw [poolRun_claimed_length]
    simp only [initPool, List.length_replicate]
    exact Nat.min_le_left _ _
  · intro i hi
    have h := poolRun_count sched (initPool q0) i
    rw [hdone] at h
    have hinit : (initPool q0).claimed.flatten.count i = 0 := by
      simp [initPool, flatten_replicate_nil]
    have hqueue : (initPool q0).queue = q0 := rfl
    rw [hinit, hqueue, List.count_nil, List.count_eq_one_of_mem hnd hi] at h
    omega

/-- Witness for C5: queue `[3, 1, 2]`, schedule `[0, 1, 2]`. -/
theorem worker_pool_claims_witness :
    ([3, 1, 2] : List Nat).Nodup ∧
    (poolRun (initPool [3, 1, 2]) [0, 1, 2]).queue = [] ∧
    ((initPool [3, 1, 2]).claimed.length = min MAX_CONCURRENCY ([3, 1, 2] : List Nat).length ∧
    (poolRun (initPool [3, 1, 2]) [0, 1, 2]).claimed.length ≤ MAX_CONCURRENCY ∧
    (∀ i ∈ ([3, 1, 2] : List Nat),
        (poolRun (initPool [3, 1, 2]) [0, 1, 2]).claimed.flatten.count i = 1)) :=
  ⟨by decide, by decide, worker_pool_claims [3, 1, 2] [0, 1, 2] (by decide) (by decide)⟩

/-! ## C2 — which indices a run uploads -/

/-- C2 counterexample: a probe reporting an empty missing list does not lead
to an empty upload; with `total = 2` the run's workers claim and upload chunks
0 and 1 (UploadManager.tsx line 130 replaces an empty missing list by the full
index range). -/
theorem empty_probe_uploads_cex :
    (poolRun (initPool (missingQueue [] 2)) [0, 0]).claimed.flatten = [0, 1] ∧
    ([0, 1] : List Nat) ≠ [] := by decide

/-- C2 as amended: a run that drains the queue uploads exactly the indices of
the queue seeded from the probe — the probe's missing list when that list is
non-empty, and every index `0..total-1` when the probe reports an empty
missing list. -/
theorem run_uploads_missing_queue (probeMissing : List Nat) (total : Nat)
    (sched : List Nat)
    (hdone : (poolRun (initPool (missingQueue probeMissing total)) sched).queue = []) :
    (∀ x, (poolRun (initPool (missingQueue probeMissing total)) sched).claimed.flatten.count x
        = (missingQueue probeMissing total).count x) ∧
    (probeMissing ≠ [] → missingQueue probeMissing total = probeMissing) ∧
    (probeMissing = [] → missingQueue probeMissing total = List.range total) := by
  refine ⟨?_, ?_, ?_⟩
  · intro x
    have h := poolRun_count sched (initPool (missingQueue probeMissing total)) x
    rw [hdone] at h
    have hinit :
        (initPool (missingQueue probeMissing total)).claimed.flatten.count x = 0 := by
      simp [initPool, flatten_replicate_nil]
    have hqueue : (initPool (missingQueue probeMissing total)).queue
        = missingQueue probeMissing total := rfl
    rw [hinit, hqueue, List.count_nil] at h
    omega
  · intro hne
    unfold missingQueue
    simp [List.length_pos.mpr hne]
  · intro hemp
    unfold missingQueue
    simp [hemp]

/-- Witness for the amended C2: probe missing `[2, 0]`, total 3, schedule `[1, 0]`. -/
theorem run_uploads_missing_queue_witness :
    (poolRun (initPool (missingQueue [2, 0] 3)) [1, 0]).queue = [] ∧
    ((∀ x, (poolRun (initPool (missingQueue [2, 0] 3)) [1, 0]).claimed.flatten.count x
        = (missingQueue [2, 0] 3).count x) ∧
    (([2, 0] : List Nat) ≠ [] → missingQueue [2, 0] 3 = [2, 0]) ∧
    (([2, 0] : List Nat) = [] → missingQueue [2, 0] 3 = List.range 3)) :=
  ⟨by decide, run_uploads_missing_queue [2, 0] 3 [1, 0] (by decide)⟩

/-! ## C3 — chunk failure handling -/

/-- Unfolding one step of a worker's drain loop. -/
theorem workerAttempts_cons (net : Nat → HttpResponse) (i : Nat) (rest : List Nat) :
    workerAttempts net (i :: rest)
      = if (net i).ok
        then ((i, 1) :: (workerAttempts net rest).1, (workerAttempts net rest).2)
        else ([(i, 1)], Except.error (chunkUploadError (net i))) := by
  by_cases hok : (net i).ok
  · simp [workerAttempts, uploadChunkResult, hok]
  · simp [workerAttempts, uploadChunkResult, hok]

/-- C3 counterexample: chunk 0's PUT is answered by a non-ok 500 response with
an empty body; the worker records exactly one attempt for chunk 0 and the run
ends at once with the terminal error — there is no retry and no backoff. -/
theorem chunk_failure_no_retry_cex :
    workerAttempts (fun _ => { ok := false, status := 500, contentType := "", body := "" }) [0]
      = ([(0, 1)], Except.error ("Chunk upload failed (500)")) := by
  rfl

/-- C3 as amended: on a chunk failure the scheduler does not retry at all —
every chunk a worker processes is attempted exactly once, and the run
surfaces a terminal error exactly when some processed chunk's response is not
ok (the first such error propagates out of the worker immediately). -/
theorem worker_single_attempt (net : Nat → HttpResponse) (q : List Nat) :
    (∀ p ∈ (workerAttempts net q).1, p.2 = 1) ∧
    ((workerAttempts net q).2 = Except.ok () ↔ ∀ i ∈ q, (net i).ok = true) := by
  induction q with
  | nil =>
    constructor
    · intro p hp
      simp [workerAttempts] at hp
    · simp [workerAttempts]
  | cons i rest ih =>
    rw [workerAttempts_cons]
    by_cases hok : (net i).ok
    · rw [if_pos hok]
      constructor
      · intro p hp
        rcases List.mem_cons.mp hp with h | h
        · rw [h]
        · exact ih.1 p h
      · constructor
        · intro h j hj
          rcases List.mem_cons.mp hj with rfl | hj
          · exact hok
          · exact (ih.2.mp h) j hj
        · intro h
          exact ih.2.mpr (fun j hj => h j (List.mem_cons_of_mem _ hj))
    · rw [if_neg hok]
      constructor
      · intro p hp
        rcases List.mem_cons.mp hp with h | h
        · rw [h]
        · simp at h
      · constructor
        · intro h
          simp at h
        · intro h
          exact absurd (h i (List.mem_cons_self i rest)) hok


/-- Witness for the amended C3: two chunks, both answered ok. -/
theorem worker_single_attempt_witness :
    (∀ p ∈ (workerAttempts
        (fun _ => { ok := true, status := 200, contentType := "", body := "" }) [0, 1]).1,
      p.2 = 1) ∧
    ((workerAttempts
        (fun _ => { ok := true, status := 200, contentType := "", body := "" }) [0, 1]).2
        = Except.ok ()
      ↔ ∀ i ∈ ([0, 1] : List Nat),
          ((fun _ => ({ ok := true, status := 200, contentType := "", body := "" } :
            HttpResponse)) i).ok = true) :=
  worker_single_attempt (fun _ => { ok := true, status := 200, contentType := "", body := "" })
    [0, 1]

/-! ## C6 — the chunk request -/

/-- C6: every chunk upload is a PUT to the per-(session, index) endpoint; its
X-Chunk-Size header is the exact byte count of the chunk it carries, its
X-Chunk-Checksum header is the content hash (SHA-256 hex in the browser) of
exactly those bytes, its Idempotency-Key embeds the session id and chunk index
and differs between attempts that draw different UUIDs, and its body is the
raw chunk bytes. -/
theorem chunk_request_fields (hash : FileBytes → String) (file : FileBytes)
    (cs : Nat) (sid : String) (i : Nat) (uuid : String) :
    (buildChunkRequest hash file cs sid i uuid).method = "PUT" ∧
    (buildChunkRequest hash file cs sid i uuid).url
        = "/upload/sessions/" ++ sid ++ "/chunk/" ++ toString i ∧
    (buildChunkRequest hash file cs sid i uuid).body = chunkAt file cs i ∧
    (buildChunkRequest hash file cs sid i uuid).xChunkSize
        = (buildChunkRequest hash file cs sid i uuid).body.length ∧
    (buildChunkRequest hash file cs sid i uuid).xChunkChecksum
        = hash (buildChunkRequest hash file cs sid i uuid).body ∧
    (buildChunkRequest hash file cs sid i uuid).idempotencyKey
        = sid ++ "-" ++ toString i ++ "-" ++ uuid ∧
    (∀ uuid2, uuid ≠ uuid2 →
      (buildChunkRequest hash file cs sid i uuid).idempotencyKey
        ≠ (buildChunkRequest hash file cs sid i uuid2).idempotencyKey) := by
  refine ⟨rfl, rfl, rfl, rfl, rfl, rfl, ?_⟩
  intro uuid2 hne heq
  apply hne
  have hdata := congrArg String.data heq
  simp only [String.data_append, List.append_assoc] at hdata
  have h1 := List.append_cancel_left hdata
  exact String.ext h1

/-- Witness for C6 at a concrete file, session and pair of UUIDs. -/
theorem chunk_request_fields_witness :
    (buildChunkRequest (fun l => toString l.length) [1, 2, 3] 2 ("sess") 1 ("uA")).method = "PUT" ∧
    (buildChunkRequest (fun l => toString l.length) [1, 2, 3] 2 ("sess") 1 ("uA")).url
        = "/upload/sessions/" ++ "sess" ++ "/chunk/" ++ toString 1 ∧
    (buildChunkRequest (fun l => toString l.length) [1, 2, 3] 2 ("sess") 1 ("uA")).body
        = chunkAt [1, 2, 3] 2 1 ∧
    (buildChunkRequest (fun l => toString l.length) [1, 2, 3] 2 ("sess") 1 ("uA")).xChunkSize
        = (buildChunkRequest (fun l => toString l.length) [1, 2, 3] 2 ("sess") 1 ("uA")).body.length ∧
    (buildChunkRequest (fun l => toString l.length) [1, 2, 3] 2 ("sess") 1 ("uA")).xChunkChecksum
        = (fun l => toString l.length)
            (buildChunkRequest (fun l => toString l.length) [1, 2, 3] 2 ("sess") 1 ("uA")).body ∧
    (buildChunkRequest (fun l => toString l.length) [1, 2, 3] 2 ("sess") 1 ("uA")).idempotencyKey
        = "sess" ++ "-" ++ toString 1 ++ "-" ++ "uA" ∧
    (∀ uuid2, "uA" ≠ uuid2 →
      (buildChunkRequest (fun l => toString l.length) [1, 2, 3] 2 ("sess") 1 ("uA")).idempotencyKey
        ≠ (buildChunkRequest (fun l => toString l.length) [1, 2, 3] 2 ("sess") 1 uuid2).idempotencyKey) :=
  chunk_request_fields (fun l => toString l.length) [1, 2, 3] 2 ("sess") 1 ("uA")

/-! ## C7 — expiry fields of the link-creation request -/

/-- C7: a link-creation request built by either client component carries
exactly one of `expires_at` / `no_expiry`; when the user supplied neither an
expiry timestamp nor the never-expires option, the handler stops with a
validation message and sends nothing.  Stated for the upload page's builder
and for the file manager's builder. -/
theorem link_payload_expiry_exclusive (toIso : String → String) (form : LinkFormState) :
    (∀ p, buildLinkPayload toIso form = Except.ok p →
        ((p.no_expiry = some true ∧ p.expires_at = none) ∨
         (p.no_expiry = none ∧ p.expires_at = some (toIso form.expiresAt)))) ∧
    ((∃ msg, buildLinkPayload toIso form = Except.error msg)
        ↔ (form.noExpiry = false ∧ form.expiresAt = "")) ∧
    (∀ p, fileManagerLinkPayload toIso form = Except.ok p →
        ((p.no_expiry = some true ∧ p.expires_at = none) ∨
         (p.no_expiry = none ∧ p.expires_at = some (toIso form.expiresAt)))) ∧
    ((∃ msg, fileManagerLinkPayload toIso form = Except.error msg)
        ↔ (form.noExpiry = false ∧ form.expiresAt = "")) := by
  unfold buildLinkPayload fileManagerLinkPayload
  by_cases h1 : form.noExpiry
  · simp [h1]
  · by_cases h2 : form.expiresAt = ""
    · simp [h1, h2]
    · simp [h1, h2]

/-- Witness for C7 at a form with an expiry typed and the never-expires box
unchecked. -/
theorem link_payload_expiry_exclusive_witness :
    (∀ p, buildLinkPayload (fun s => s ++ "Z")
          { noExpiry := false, expiresAt := "2026-01-01T00:00", password := " pw ",
            requirePage := true, createShort := false } = Except.ok p →
        ((p.no_expiry = some true ∧ p.expires_at = none) ∨
         (p.no_expiry = none ∧ p.expires_at = some ("2026-01-01T00:00" ++ "Z")))) ∧
    ((∃ msg, buildLinkPayload (fun s => s ++ "Z")
          { noExpiry := false, expiresAt := "2026-01-01T00:00", password := " pw ",
            requirePage := true, createShort := false } = Except.error msg)
        ↔ ((false : Bool) = false ∧ "2026-01-01T00:00" = "")) ∧
    (∀ p, fileManagerLinkPayload (fun s => s ++ "Z")
          { noExpiry := false, expiresAt := "2026-01-01T00:00", password := " pw ",
            requirePage := true, createShort := false } = Except.ok p →
        ((p.no_expiry = some true ∧ p.expires_at = none) ∨
         (p.no_expiry = none ∧ p.expires_at = some ("2026-01-01T00:00" ++ "Z")))) ∧
    ((∃ msg, fileManagerLinkPayload (fun s => s ++ "Z")
          { noExpiry := false, expiresAt := "2026-01-01T00:00", password := " pw ",
            requirePage := true, createShort := false } = Except.error msg)
        ↔ ((false : Bool) = false ∧ "2026-01-01T00:00" = "")) :=
  link_payload_expiry_exclusive (fun s => s ++ "Z")
    { noExpiry := false, expiresAt := "2026-01-01T00:00", password := " pw ",
      requirePage := true, createShort := false }

/-! ## C8 — the finalize / poll tail -/

/-- The polling loop always falls through to success. -/
theorem pollRun_fst (states : Nat → String) (l : List Nat) :
    (pollRun states l).1 = true := by
  induction l with
  | nil => rfl
  | cons a rest ih =>
    unfold pollRun
    by_cases h : states a = "completed"
    · simp [h]
    · simp [h, ih]

/-- When no polled status is `completed`, the loop runs through all attempts. -/
theorem pollRun_none (states : Nat → String) (l : List Nat)
    (h : ∀ a ∈ l, states a ≠ "completed") : pollRun states l = (true, l.length) := by
  induction l with
  | nil => rfl
  | cons a rest ih =>
    unfold pollRun
    rw [if_neg (h a (List.mem_cons_self a rest))]
    rw [ih (fun b hb => h b (List.mem_cons_of_mem a hb))]
    rfl

/-- The loop stops at the first `completed` poll, counting the polls before it. -/
theorem pollRun_first_completed (states : Nat → String) (l1 : List Nat) (x : Nat)
    (l2 : List Nat) (h1 : ∀ a ∈ l1, states a ≠ "completed")
    (hx : states x = "completed") :
    pollRun states (l1 ++ x :: l2) = (true, l1.length + 1) := by
  induction l1 with
  | nil =>
    show pollRun states (x :: l2) = (true, [].length + 1)
    unfold pollRun
    rw [if_pos hx]
    rfl
  | cons a rest ih =>
    show pollRun states (a :: (rest ++ x :: l2)) = _
    unfold pollRun
    rw [if_neg (h1 a (List.mem_cons_self a rest))]
    rw [ih (fun b hb => h1 b (List.mem_cons_of_mem a hb))]
    rfl

/-- C8 counterexample: finalize reports `processing` and every one of the 60
polls reports `failed`; the client still declares the upload finished with
success after the 60th poll (the code after the loop runs unconditionally). -/
theorem finalize_poll_success_cex :
    finalizePhase ("processing") (fun _ => "failed") = (true, 60) := by
  rw [finalizePhase, if_neg (by decide)]
  rw [pollRun_none _ _ (fun a _ => by decide)]
  rfl

/-- C8 as amended: when finalize reports `completed` the client declares
success at once with no polling; otherwise it polls up to 60 times, declaring
success at the first poll reporting `completed`; and when none of the 60 polls
reports `completed` it falls through and still declares success — the declared
outcome is success in every case, whether or not the session completed. -/
theorem finalize_poll_behaviour (fs : String) (states : Nat → String) :
    (finalizePhase fs states).1 = true ∧
    (fs = "completed" → finalizePhase fs states = (true, 0)) ∧
    (fs ≠ "completed" → (∀ i, i < 60 → states i ≠ "completed") →
        finalizePhase fs states = (true, 60)) ∧
    (fs ≠ "completed" → ∀ i, i < 60 → states i = "completed" →
        (∀ j, j < i → states j ≠ "completed") →
        finalizePhase fs states = (true, i + 1)) := by
  refine ⟨?_, ?_, ?_, ?_⟩
  · unfold finalizePhase
    by_cases h : fs = "completed"
    · simp [h]
    · simp [h, pollRun_fst]
  · intro h
    unfold finalizePhase
    rw [if_pos h]
  · intro h hall
    unfold finalizePhase
    rw [if_neg h]
    rw [pollRun_none _ _ (fun a ha => hall a (List.mem_range.mp ha))]
    rw [List.length_range]
  · intro h i hi hcomp hbefore
    unfold finalizePhase
    rw [if_neg h]
    have hsplit : List.range 60 = List.range i ++ i :: ((List.range (59 - i)).map ((i + 1) + ·)) := by
      have h60 : 60 = (i + 1) + (59 - i) := by omega
      rw [h60, List.range_add, List.range_succ, List.append_assoc, List.singleton_append]
    rw [hsplit, pollRun_first_completed _ _ _ _
      (fun a ha => hbefore a (List.mem_range.mp ha)) hcomp]
    rw [List.length_range]

/-- Witness for the amended C8: finalize `processing`, the third poll (index 2)
reports `completed`; the client declares success after 3 polls. -/
theorem finalize_poll_behaviour_witness :
    finalizePhase ("processing") (fun i => if i = 2 then "completed" else "processing")
      = (true, 2 + 1) :=
  (finalize_poll_behaviour ("processing")
      (fun i => if i = 2 then "completed" else "processing")).2.2.2
    (by decide) 2 (by decide) (by decide) (by decide)

/-! ## C9 — apiFetch -/

/-- C9: `apiFetch` throws exactly when the response is not ok, with the body
text or, for an empty body, a fallback message naming the status code; a 204
returns the empty object; otherwise the JSON-parsed body is returned when the
Content-Type includes `application/json` and the raw text body when it does
not. -/
theorem apiFetch_spec (jsonParse : String → String) (r : HttpResponse) :
    ((∃ e, apiFetch jsonParse r = Except.error e) ↔ r.ok = false) ∧
    (r.ok = false → apiFetch jsonParse r = Except.error
        (if r.body = "" then "Request failed (" ++ toString r.status ++ ")" else r.body)) ∧
    (r.ok = true → r.status = 204 →
        apiFetch jsonParse r = Except.ok FetchResult.emptyObj) ∧
    (r.ok = true → r.status ≠ 204 →
        stringIncludes r.contentType ("application/json") = true →
        apiFetch jsonParse r = Except.ok (FetchResult.jsonBody (jsonParse r.body))) ∧
    (r.ok = true → r.status ≠ 204 →
        stringIncludes r.contentType ("application/json") = false →
        apiFetch jsonParse r = Except.ok (FetchResult.textBody r.body)) := by
  unfold apiFetch
  by_cases hok : r.ok
  · by_cases h204 : r.status = 204
    · simp [hok, h204]
    · by_cases hct : stringIncludes r.contentType ("application/json")
      · simp [hok, h204, hct]
      · simp [hok, h204, hct]
  · simp [hok]

/-- Witness for C9 at an ok JSON response. -/
theorem apiFetch_spec_witness :
    apiFetch (fun s => s)
        { ok := true, status := 200,
          contentType := "application/json; charset=utf-8", body := "x" }
      = Except.ok (FetchResult.jsonBody ((fun s : String => s) "x")) :=
  (apiFetch_spec (fun s => s)
      { ok := true, status := 200,
        contentType := "application/json; charset=utf-8", body := "x" }).2.2.2.1
    (by decide) (by decide) (by decide)

/-! ## C10 — which link the client presents -/

/-- C10: the client presents the interstitial share-download page URL as the
long path exactly when the link requires the download page or has a password,
and the link's direct URL otherwise; and when a short URL exists it is always
the primary link, with the long path kept as the fallback, while without one
the long path is primary and there is no fallback. -/
theorem link_presentation_spec (encode : String → String) (fileId name tok : String)
    (link : LinkRecord) :
    ((link.require_download_page || link.has_password) = true →
        downloadPagePath encode fileId name tok link
          = "/share-download/" ++ fileId ++ "?token=" ++ encode tok
              ++ "&name=" ++ encode name) ∧
    ((link.require_download_page || link.has_password) = false →
        downloadPagePath encode fileId name tok link = link.url) ∧
    (∀ s, link.short_url = some s →
        primaryPath encode fileId name tok link = s ∧
        fallbackPath encode fileId name tok link
          = some (downloadPagePath encode fileId name tok link)) ∧
    (link.short_url = none →
        primaryPath encode fileId name tok link
          = downloadPagePath encode fileId name tok link ∧
        fallbackPath encode fileId name tok link = none) := by
  refine ⟨?_, ?_, ?_, ?_⟩
  · intro h
    unfold downloadPagePath
    rw [if_pos h]
  · intro h
    unfold downloadPagePath
    rw [if_neg (by simp [h])]
  · intro s hs
    unfold primaryPath fallbackPath
    rw [hs]
    exact ⟨rfl, by simp⟩
  · intro hs
    unfold primaryPath fallbackPath
    rw [hs]
    exact ⟨rfl, by simp⟩

/-- Witness for C10 at a password-protected link carrying a short URL: the
short URL is primary and the interstitial page path is the fallback. -/
theorem link_presentation_spec_witness :
    primaryPath (fun s => s) "f1" "doc.pdf" "T"
        { url := "/files/f1/download?token=T", require_download_page := false,
          has_password := true, short_url := some "/s/abc" } = "/s/abc" ∧
    fallbackPath (fun s => s) "f1" "doc.pdf" "T"
        { url := "/files/f1/download?token=T", require_download_page := false,
          has_password := true, short_url := some "/s/abc" }
      = some (downloadPagePath (fun s => s) "f1" "doc.pdf" "T"
          { url := "/files/f1/download?token=T", require_download_page := false,
            has_password := true, short_url := some "/s/abc" }) :=
  (link_presentation_spec (fun s => s) "f1" "doc.pdf" "T"
      { url := "/files/f1/download?token=T", require_download_page := false,
        has_password := true, short_url := some "/s/abc" }).2.2.1 ("/s/abc") rfl

end ShareFile
